import Mathlib

/-!
Verification development for the iota editor core (`src/iota/editor.rs`).

The only source file available is `editor.rs`; the modules it imports
(`keyboard`, `keymap`, `overlay`, `buffer`, `view`, `textobject`, `modes`,
`frontends`) are not among the sources, so those parts of the data model are
modelled from the specification (each such definition carries a
`Modelled from the spec:` doc comment).  Everything in the `Editor` section is
a direct shallow embedding of the Rust code in `editor.rs`.
-/

set_option autoImplicit false

namespace Iota

/-- Modelled from the spec: the `keyboard` module is not among the sources.
A `Key` is a semantic input unit: a printable character, a named key
(arrows, backspace, delete, enter, tab, escape, function keys) or a
modifier combination (`Ctrl`+character).  Equality is structural (§3). -/
inductive Key where
  | Char : Char → Key
  | Up : Key
  | Down : Key
  | Left : Key
  | Right : Key
  | Backspace : Key
  | Delete : Key
  | Enter : Key
  | Tab : Key
  | Esc : Key
  | Ctrl : Char → Key
  | F : Nat → Key
deriving DecidableEq, Repr

/-- Modelled from the spec: `Key::from(&str)` of the missing `keyboard`
module, parsing the key names used by the binding table (§6): arrow names,
`"backspace"`, `"delete"`, `"enter"`, `"tab"`, `"esc"`, `"ctrl-<c>"`
for a modifier combination, and a single printable character otherwise
(a space is the fallback for the empty name). -/
def Key.fromString (s : String) : Key :=
  if s = "up" then Key.Up
  else if s = "down" then Key.Down
  else if s = "left" then Key.Left
  else if s = "right" then Key.Right
  else if s = "backspace" then Key.Backspace
  else if s = "delete" then Key.Delete
  else if s = "enter" then Key.Enter
  else if s = "tab" then Key.Tab
  else if s = "esc" then Key.Esc
  else if s.data.take 5 = "ctrl-".data then Key.Ctrl ((s.data.drop 5).headD ' ')
  else Key.Char (s.data.headD ' ')

/-- Embedded from `editor.rs` lines 28-43: an `Event` is an opaque named
token; it carries no payload beyond its name. -/
structure Event where
  name : String
deriving DecidableEq, Repr

/-- Embedded from `editor.rs` line 34 (`Event::new`). -/
def Event.new (name : String) : Event := { name := name }

/-- Embedded from `editor.rs` line 40 (`Event::get_name`). -/
def Event.get_name (e : Event) : String := e.name

/-- Modelled from the spec: the `keymap` module is not among the sources.
`KeyMapState` is the result of feeding one key to the matcher (§4.1):
a complete match carrying the bound event, a still-ambiguous continuation,
or no match at all.  Constructor names follow the uses in `editor.rs`
(`KeyMapState::Match`, `::Continue`, `::None`). -/
inductive KeyMapState where
  | Match : Event → KeyMapState
  | Continue : KeyMapState
  | None : KeyMapState
deriving DecidableEq, Repr

/-- Modelled from the spec: the `keymap` module is not among the sources.
The trie of §4.1 is represented extensionally as the list of bindings
(key sequence, bound event) together with the current partial-match
prefix (the path from the root to the current trie node). -/
structure KeyMap where
  bindings : List (List Key × Event)
  current : List Key
deriving DecidableEq, Repr

/-- Modelled from the spec: `KeyMap::new` — an empty trie at its root. -/
def KeyMap.new : KeyMap := { bindings := [], current := [] }

/-- Modelled from the spec: `bind(sequence, event)` registers or overwrites
a binding (§4.1); a sequence is bound to at most one event, rebinding
overwrites (§3). -/
def KeyMap.bind_keys (km : KeyMap) (keys : List Key) (ev : Event) : KeyMap :=
  { km with bindings := km.bindings.filter (fun b => decide (b.1 ≠ keys)) ++ [(keys, ev)] }

/-- The event bound to exactly the sequence `seq`, if any. -/
def KeyMap.lookup (km : KeyMap) (seq : List Key) : Option Event :=
  (km.bindings.find? (fun b => decide (b.1 = seq))).map (fun b => b.2)

/-- Whether `seq` is a proper prefix of some bound sequence, i.e. the
trie node reached by `seq` has a continuation. -/
def KeyMap.has_continuation (km : KeyMap) (seq : List Key) : Bool :=
  km.bindings.any (fun b => decide (seq.length < b.1.length ∧ b.1.take seq.length = seq))

/-- Modelled from the spec: `feed(key)` of §4.1, named `check_key` after its
use in `editor.rs`.  The fed key extends the current partial match; an
exactly-bound sequence is a `Match` ("first satisfied node wins") and resets
the matcher to the root, a proper prefix of a longer binding is `Continue`
(state retained), anything else is `None` and resets to the root. -/
def KeyMap.check_key (km : KeyMap) (k : Key) : KeyMap × KeyMapState :=
  let seq := km.current ++ [k]
  match km.lookup seq with
  | some ev => ({ km with current := [] }, KeyMapState.Match ev)
  | Option.none =>
    if km.has_continuation seq then ({ km with current := seq }, KeyMapState.Continue)
    else ({ km with current := [] }, KeyMapState.None)

/-- Modelled from the spec: the `overlay` module is not among the sources.
An `Overlay` is a variant type over prompt kinds (§3, §4.4), each holding
the accumulated input text.  Only the distinction active (non-`None`) versus
inert (`None`) matters to the editor claims. -/
inductive Overlay where
  | None : Overlay
  | Prompt : String → Overlay
  | SavePrompt : String → Overlay
  | SelectFile : String → Overlay
deriving DecidableEq, Repr

/-- Modelled from the spec: the `modes` module is not among the sources.
The two input modes named in `editor.rs` (`ModeType::Insert`,
`ModeType::Normal`). -/
inductive ModeType where
  | Insert : ModeType
  | Normal : ModeType
deriving DecidableEq, Repr

/-- Modelled from the spec: the `buffer` module is not among the sources.
`editor.rs` only ever names the primary cursor mark `Mark::Cursor(0)`. -/
inductive Mark where
  | Cursor : Nat → Mark
deriving DecidableEq, Repr

/-- Modelled from the spec: the `textobject` module is not among the
sources.  `Kind` enumerates the addressable units of §3. -/
inductive Kind where
  | Char : Kind
  | Word : Kind
  | Line : Kind
  | LineEnd : Kind
  | LineStart : Kind
deriving DecidableEq, Repr

/-- Modelled from the spec: `Offset` of §3. -/
inductive Offset where
  | Forward : Nat → Mark → Offset
  | Backward : Nat → Mark → Offset
  | Absolute : Nat → Offset
deriving DecidableEq, Repr

/-- Modelled from the spec: `TextObject` of §3. -/
structure TextObject where
  kind : Kind
  offset : Offset
deriving DecidableEq, Repr

/-- Length of the longest boolean-satisfying run at the head of a list. -/
def countWhile (p : Char → Bool) : List Char → Nat
  | [] => 0
  | c :: cs => if p c then countWhile p cs + 1 else 0

/-- Characters making up a word, for `Kind.Word` boundary scans. -/
def is_word_char (c : Char) : Bool := !(c == ' ' || c == '\n' || c == '\t')

/-- Index of the first character of the line containing position `pos`. -/
def lineStartIdx (buf : List Char) (pos : Nat) : Nat :=
  pos - countWhile (fun c => c != '\n') (buf.take pos).reverse

/-- Index of the newline ending the line containing `pos` (or the buffer
length when the last line is unterminated). -/
def lineEndIdx (buf : List Char) (pos : Nat) : Nat :=
  pos + countWhile (fun c => c != '\n') (buf.drop pos)

/-- One word unit forward: past the current word, then past the following
separators. -/
def wordForward (buf : List Char) (pos : Nat) : Nat :=
  let a := pos + countWhile is_word_char (buf.drop pos)
  a + countWhile (fun c => !is_word_char c) (buf.drop a)

/-- One word unit backward: past the separators behind `pos`, then to the
start of the word before them. -/
def wordBackward (buf : List Char) (pos : Nat) : Nat :=
  let r := (buf.take pos).reverse
  let a := countWhile (fun c => !is_word_char c) r
  pos - (a + countWhile is_word_char (r.drop a))

/-- Modelled from the spec: one unit of the given `Kind` in the given
direction (§4.2); positions are clamped, never out of range. -/
def unit_step (buf : List Char) (kind : Kind) (fwd : Bool) (pos : Nat) : Nat :=
  match kind, fwd with
  | Kind.Char, true => min (pos + 1) buf.length
  | Kind.Char, false => pos - 1
  | Kind.Word, true => wordForward buf pos
  | Kind.Word, false => wordBackward buf pos
  | Kind.Line, true => min (lineEndIdx buf pos + 1) buf.length
  | Kind.Line, false =>
      if lineStartIdx buf pos = 0 then 0 else lineStartIdx buf (lineStartIdx buf pos - 1)
  | Kind.LineEnd, _ => lineEndIdx buf pos
  | Kind.LineStart, _ => lineStartIdx buf pos

/-- `n` units of the given kind applied in sequence. -/
def apply_units (buf : List Char) (kind : Kind) (fwd : Bool) : Nat → Nat → Nat
  | 0, pos => pos
  | n + 1, pos => apply_units buf kind fwd n (unit_step buf kind fwd pos)

/-- Position of a mark; only the primary cursor is represented (the only
mark `editor.rs` ever constructs). -/
def mark_pos (cursor : Nat) : Mark → Nat
  | Mark.Cursor _ => cursor

/-- Modelled from the spec: `resolve(buffer, mark, text_object) -> Range`
(§4.2).  `Backward(n, m)` is the clamped range ending at `m`; `Forward(n, m)`
the clamped range starting at `m`; clamping never errors. -/
def resolve (buf : List Char) (cursor : Nat) (t : TextObject) : Nat × Nat :=
  match t.offset with
  | Offset.Forward n m =>
      let p := mark_pos cursor m
      (p, apply_units buf t.kind true n p)
  | Offset.Backward n m =>
      let p := mark_pos cursor m
      (apply_units buf t.kind false n p, p)
  | Offset.Absolute p => (min p buf.length, min p buf.length)

/-- Modelled from the spec: the `buffer` module is not among the sources.
Text content, the primary cursor mark, the optional file path, the dirty
flag, and undo/redo stacks (§3, §4.3).  The stacks hold the pre-edit
(content, cursor) pair, the inverse information of each primitive edit. -/
structure Buffer where
  content : List Char
  cursor : Nat
  file_path : Option String
  dirty : Bool
  undo_stack : List (List Char × Nat)
  redo_stack : List (List Char × Nat)
deriving DecidableEq, Repr

/-- The restorable part of a buffer, pushed on the history stacks. -/
def Buffer.snapshot (b : Buffer) : List Char × Nat := (b.content, b.cursor)

/-- Modelled from the spec: `insert(mark, text)` for one character at the
primary cursor (§4.3, §4.5): the cursor mark is advanced past the insertion,
the inverse is pushed on the undo stack and the redo stack is cleared. -/
def Buffer.insert_at_cursor (b : Buffer) (c : Char) : Buffer :=
  { b with
    content := b.content.take b.cursor ++ c :: b.content.drop b.cursor
    cursor := b.cursor + 1
    dirty := true
    undo_stack := b.snapshot :: b.undo_stack
    redo_stack := [] }

/-- Modelled from the spec: `delete(range)` for a half-open range (§4.3):
marks past the range shift back by its length, a mark inside the range
collapses to its start; the inverse is pushed on the undo stack and the
redo stack is cleared.  An empty range is a no-op. -/
def Buffer.delete_range (b : Buffer) (lo hi : Nat) : Buffer :=
  if lo < hi then
    { b with
      content := b.content.take lo ++ b.content.drop hi
      cursor :=
        if hi ≤ b.cursor then b.cursor - (hi - lo)
        else if lo < b.cursor then lo else b.cursor
      dirty := true
      undo_stack := b.snapshot :: b.undo_stack
      redo_stack := [] }
  else b

/-- Modelled from the spec: `undo()` (§4.3): pop the undo stack, restore,
push the pre-undo state on the redo stack; a no-op on an empty stack. -/
def Buffer.undo (b : Buffer) : Buffer :=
  match b.undo_stack with
  | [] => b
  | (c, p) :: rest =>
      { b with content := c, cursor := p, undo_stack := rest
               redo_stack := b.snapshot :: b.redo_stack }

/-- Modelled from the spec: `redo()` (§4.3), the mirror of `undo()`. -/
def Buffer.redo (b : Buffer) : Buffer :=
  match b.redo_stack with
  | [] => b
  | (c, p) :: rest =>
      { b with content := c, cursor := p, redo_stack := rest
               undo_stack := b.snapshot :: b.undo_stack }

/-- Modelled from the spec: `save` (§4.3, §7): with an associated path the
dirty flag is cleared; without one the error is surfaced as a status
message and the edit state is unaffected. -/
def Buffer.try_save (b : Buffer) : Buffer :=
  if b.file_path.isSome then { b with dirty := false } else b

/-- Modelled from the spec: the `view` module is not among the sources.
A viewport over one buffer: a buffer reference, the active overlay, the
last known terminal dimensions and the vertical scroll offset (§3, §4.5). -/
structure View where
  buffer : Buffer
  overlay : Overlay
  width : Nat
  height : Nat
  scroll_top : Nat
deriving DecidableEq, Repr

/-- Line number (newline count) of the character position `pos`. -/
def cursor_line (buf : List Char) (pos : Nat) : Nat :=
  ((buf.take pos).filter (fun c => c == '\n')).length

/-- Modelled from the spec: the scrolling invariant of §4.5 — the line of
the primary mark is kept inside `[scroll_top, scroll_top + height)` by
adjusting the scroll offset, never the cursor. -/
def View.adjust_scroll (v : View) : View :=
  let line := cursor_line v.buffer.content v.buffer.cursor
  { v with scroll_top :=
      if line < v.scroll_top then line
      else if v.scroll_top + v.height ≤ line then line + 1 - v.height
      else v.scroll_top }

/-- Modelled from the spec: `insert_char(c)` (§4.5): insert at the primary
mark and advance it by one. -/
def View.insert_char (v : View) (c : Char) : View :=
  View.adjust_scroll { v with buffer := v.buffer.insert_at_cursor c }

/-- Modelled from the spec: delete the range from the given mark to the
resolved text object (§4.5, §4.2). -/
def View.delete_from_mark_to_object (v : View) (m : Mark) (t : TextObject) : View :=
  let r := resolve v.buffer.content (mark_pos v.buffer.cursor m) t
  View.adjust_scroll { v with buffer := v.buffer.delete_range (min r.1 r.2) (max r.1 r.2) }

/-- Modelled from the spec: undo delegated to the buffer (§4.3, §4.5). -/
def View.undo (v : View) : View := { v with buffer := v.buffer.undo }

/-- Modelled from the spec: redo delegated to the buffer (§4.3, §4.5). -/
def View.redo (v : View) : View := { v with buffer := v.buffer.redo }

/-- Modelled from the spec: saving delegated to the buffer (§4.3, §7). -/
def View.try_save_buffer (v : View) : View := { v with buffer := v.buffer.try_save }

/-- Modelled from the spec: move the cursor one unit left, clamped (§4.5). -/
def View.move_left (v : View) : View :=
  View.adjust_scroll { v with buffer := { v.buffer with cursor := v.buffer.cursor - 1 } }

/-- Modelled from the spec: move the cursor one unit right, clamped (§4.5). -/
def View.move_right (v : View) : View :=
  View.adjust_scroll
    { v with buffer :=
        { v.buffer with cursor := min (v.buffer.cursor + 1) v.buffer.content.length } }

/-- Modelled from the spec: move the cursor to the same column of the
previous line, clamped to that line; a no-op on the first line (§4.5). -/
def View.move_up (v : View) : View :=
  let buf := v.buffer.content
  let pos := v.buffer.cursor
  let ls := lineStartIdx buf pos
  let newPos :=
    if ls = 0 then pos
    else min (lineStartIdx buf (ls - 1) + (pos - ls)) (ls - 1)
  View.adjust_scroll { v with buffer := { v.buffer with cursor := newPos } }

/-- Modelled from the spec: move the cursor to the same column of the next
line, clamped to that line; a no-op on the last line (§4.5). -/
def View.move_down (v : View) : View :=
  let buf := v.buffer.content
  let pos := v.buffer.cursor
  let le := lineEndIdx buf pos
  let newPos :=
    if le = buf.length then pos
    else min (le + 1 + (pos - lineStartIdx buf pos)) (lineEndIdx buf (le + 1))
  View.adjust_scroll { v with buffer := { v.buffer with cursor := newPos } }

/-- Modelled from the spec: `resize(width, height)` updates the viewport
dimensions and recomputes the scroll offset so the mark stays visible
(§4.5). -/
def View.resize (v : View) (w h : Nat) : View :=
  View.adjust_scroll { v with width := w, height := h }

/-- Embedded from `frontends` as declared by the spec (§6): the opaque
frontend event delivered by `poll_event()`. -/
inductive EditorEvent where
  | KeyEvent : Option Key → EditorEvent
  | Resize : Nat → Nat → EditorEvent
  | Other : EditorEvent
deriving DecidableEq, Repr

/-- Embedded from `editor.rs` lines 49-57: the `Editor` state.  The
`buffers` vector is omitted: it is written only in `Editor::new` and never
read by any operation embedded here; the frontend is an external
collaborator, its effects appear as the event list fed to `run` and the
draw count it returns. -/
structure EditorState where
  view : View
  running : Bool
  mode : ModeType
  events_queue : List Event
  keymap : KeyMap
deriving DecidableEq, Repr

/-- Embedded from `editor.rs` lines 61-80 (`Editor::new`): running starts
`true`, the event queue empty, the key map empty. -/
def init (v : View) (m : ModeType) : EditorState :=
  { view := v, running := true, mode := m, events_queue := [], keymap := KeyMap.new }

/-- Embedded from `editor.rs` lines 280-282 (`Editor::fire_event`): push
the event on the back of the pending-event queue. -/
def fire_event (s : EditorState) (event : Event) : EditorState :=
  { s with events_queue := s.events_queue ++ [event] }

/-- Embedded from `editor.rs` lines 93-119 (`Editor::handle_key_event`):
a `None` key returns at once; otherwise the key is fed to the key map —
a `Match` fires the bound event, `Continue` does nothing further, and on
`None` a character key is inserted into the buffer via the view. -/
def handle_key_event (s : EditorState) (key : Option Key) : EditorState :=
  match key with
  | Option.none => s
  | some k =>
    match s.keymap.check_key k with
    | (km, KeyMapState.Match c) => fire_event { s with keymap := km } c
    | (km, KeyMapState.Continue) => { s with keymap := km }
    | (km, KeyMapState.None) =>
      match k with
      | Key.Char ch => { s with keymap := km, view := s.view.insert_char ch }
      | _ => { s with keymap := km }

/-- Embedded from `editor.rs` lines 172-174 (`Editor::handle_resize_event`). -/
def handle_resize_event (s : EditorState) (width height : Nat) : EditorState :=
  { s with view := s.view.resize width height }

/-- The character-level splitter behind `split_on_space`. -/
def splitOnSpaceAux : List Char → List Char → List (List Char)
  | [], acc => [acc.reverse]
  | c :: cs, acc =>
    if c = ' ' then acc.reverse :: splitOnSpaceAux cs []
    else splitOnSpaceAux cs (c :: acc)

/-- `key_str.split(' ')` of the Rust standard library: the pieces of the
string between the spaces, in order. -/
def split_on_space (s : String) : List String :=
  (splitOnSpaceAux s.data []).map String.mk

/-- Embedded from `editor.rs` lines 262-278 (`Editor::bind_keys`): the key
string is split on spaces, each part parsed into a `Key`, and the sequence
bound to a fresh event with the given name. -/
def bind_keys (s : EditorState) (key_str : String) (event : String) : EditorState :=
  let bits := split_on_space key_str
  let keys := bits.map Key.fromString
  { s with keymap := s.keymap.bind_keys keys (Event.new event) }

/-- Embedded from `editor.rs` lines 244-260 (`Editor::register_key_bindings`):
the fixed default binding set, in registration order. -/
def register_key_bindings (s : EditorState) : EditorState :=
  let s := bind_keys s "up" "iota.move_up"
  let s := bind_keys s "down" "iota.move_down"
  let s := bind_keys s "left" "iota.move_left"
  let s := bind_keys s "right" "iota.move_right"
  let s := bind_keys s "ctrl-q" "iota.quit"
  let s := bind_keys s "backspace" "iota.delete_backwards"
  let s := bind_keys s "delete" "iota.delete_forwards"
  let s := bind_keys s "enter" "iota.newline"
  let s := bind_keys s "ctrl-z" "iota.undo"
  let s := bind_keys s "ctrl-r" "iota.redo"
  bind_keys s "ctrl-s" "iota.save"

/-- Embedded from `editor.rs` lines 284-326 (`Editor::process_event`): the
dispatch over built-in event names; any other name falls to the final
catch-all arm and does nothing. -/
def process_event (s : EditorState) (event : Event) : EditorState :=
  match event.get_name with
  | "iota.quit" => { s with running := false }
  | "iota.undo" => { s with view := s.view.undo }
  | "iota.redo" => { s with view := s.view.redo }
  | "iota.save" => { s with view := s.view.try_save_buffer }
  | "iota.newline" => { s with view := s.view.insert_char '\n' }
  | "iota.delete_backwards" =>
      { s with view := s.view.delete_from_mark_to_object (Mark.Cursor 0)
                { kind := Kind.Char, offset := Offset.Backward 1 (Mark.Cursor 0) } }
  | "iota.delete_forwards" =>
      { s with view := s.view.delete_from_mark_to_object (Mark.Cursor 0)
                { kind := Kind.Char, offset := Offset.Forward 1 (Mark.Cursor 0) } }
  | "iota.move_up" => { s with view := s.view.move_up }
  | "iota.move_down" => { s with view := s.view.move_down }
  | "iota.move_left" => { s with view := s.view.move_left }
  | "iota.move_right" => { s with view := s.view.move_right }
  | _ => s

/-- Embedded from `editor.rs` lines 345-347: the drain loop
`while let Some(event) = self.events_queue.pop_front() { self.process_event(event) }`,
unfolded with the queue length as fuel (`process_event` never touches the
queue, so the initial length is exactly the number of pops; theorem
`drain_queue_empties` below certifies the fuel is sufficient). -/
def drain_aux : Nat → EditorState → EditorState
  | 0, s => s
  | fuel + 1, s =>
    match s.events_queue with
    | [] => s
    | e :: rest => drain_aux fuel (process_event { s with events_queue := rest } e)

/-- The drain loop of `Editor::start` (lines 345-347). -/
def drain_queue (s : EditorState) : EditorState :=
  drain_aux s.events_queue.length s

/-- The sequence of events processed by the drain loop, in processing
order (same fuel discipline as `drain_aux`). -/
def drain_trace_aux : Nat → EditorState → List Event
  | 0, _ => []
  | fuel + 1, s =>
    match s.events_queue with
    | [] => []
    | e :: rest => e :: drain_trace_aux fuel (process_event { s with events_queue := rest } e)

/-- The events processed by one run of the drain loop, in order. -/
def drain_trace (s : EditorState) : List Event :=
  drain_trace_aux s.events_queue.length s

/-- Embedded from `editor.rs` lines 338-343: dispatch of one polled
frontend event (key events and resizes are handled, anything else is
ignored). -/
def dispatch (s : EditorState) (event : EditorEvent) : EditorState :=
  match event with
  | EditorEvent.KeyEvent key => handle_key_event s key
  | EditorEvent.Resize w h => handle_resize_event s w h
  | EditorEvent.Other => s

/-- One iteration body of the main loop after the draw/present/poll: the
dispatch of the polled event followed by the queue drain
(`editor.rs` lines 338-347). -/
def step (s : EditorState) (event : EditorEvent) : EditorState :=
  drain_queue (dispatch s event)

/-- Embedded from `editor.rs` lines 333-348 (`Editor::start`'s
`while self.running` loop) over a finite list of polled frontend events.
Returns the final state and the number of draw calls issued: each
iteration entered with `running` true draws once before polling; with the
event list exhausted the loop draws once more and then blocks in
`poll_event` for input that never comes. -/
def run : EditorState → List EditorEvent → EditorState × Nat
  | s, [] => if s.running then (s, 1) else (s, 0)
  | s, e :: rest =>
    if s.running then
      let r := run (step s e) rest
      (r.1, r.2 + 1)
    else (s, 0)

/-- The states at which the executed iterations of the main loop begin
(the moments at which the draw of that iteration is issued). -/
def iter_states : EditorState → List EditorEvent → List EditorState
  | s, [] => if s.running then [s] else []
  | s, e :: rest => if s.running then s :: iter_states (step s e) rest else []

/-- Embedded from `editor.rs` lines 329-349 (`Editor::start`): the default
key bindings are registered once, before the loop is entered. -/
def start (s : EditorState) (evs : List EditorEvent) : EditorState × Nat :=
  run (register_key_bindings s) evs

/-- A fresh, empty, path-less buffer (`Buffer::from` of an empty input). -/
def empty_buffer : Buffer :=
  { content := [], cursor := 0, file_path := Option.none, dirty := false
    undo_stack := [], redo_stack := [] }

/-- A view on the empty buffer with no active overlay. -/
def v0 : View :=
  { buffer := empty_buffer, overlay := Overlay.None, width := 80, height := 24, scroll_top := 0 }

/-- The same view with an active (non-`None`) overlay: an empty line
prompt. -/
def vOv : View := { v0 with overlay := Overlay.Prompt "" }

/-- The editor just after startup (bindings registered) in normal mode,
no overlay. -/
def s0 : EditorState := register_key_bindings (init v0 ModeType.Normal)

/-- The editor just after startup in normal mode with an active overlay. -/
def sOv : EditorState := register_key_bindings (init vOv ModeType.Normal)

/-! ### Frame lemmas about `process_event` -/

/-- `process_event` never touches the pending-event queue: no branch of the
dispatch fires or pops events. -/
theorem process_event_queue (s : EditorState) (e : Event) :
    (process_event s e).events_queue = s.events_queue := by
  unfold process_event
  split <;> rfl

/-- `process_event` never touches the key map. -/
theorem process_event_keymap (s : EditorState) (e : Event) :
    (process_event s e).keymap = s.keymap := by
  unfold process_event
  split <;> rfl

/-- Only the `"iota.quit"` branch of `process_event` writes `running`. -/
theorem process_event_running_of_ne (s : EditorState) (e : Event)
    (h : e.name ≠ "iota.quit") : (process_event s e).running = s.running := by
  unfold process_event
  split <;> simp_all [Event.get_name]

/-- Processing the `"iota.quit"` event stops the editor. -/
theorem process_event_quit (s : EditorState) (e : Event)
    (h : e.name = "iota.quit") : (process_event s e).running = false := by
  unfold process_event
  split <;> simp_all [Event.get_name]

/-- No branch of `process_event` ever sets `running` back to `true`. -/
theorem process_event_running_false (s : EditorState) (e : Event)
    (h : s.running = false) : (process_event s e).running = false := by
  unfold process_event
  split <;> simp_all

/-! ### Lemmas about the drain loop -/

/-- With fuel at least the queue length, the drain loop empties the queue. -/
theorem drain_aux_queue : ∀ (fuel : Nat) (s : EditorState),
    s.events_queue.length ≤ fuel → (drain_aux fuel s).events_queue = [] := by
  intro fuel
  induction fuel with
  | zero =>
    intro s h
    have : s.events_queue = [] := List.length_eq_zero.mp (Nat.le_zero.mp h)
    simp [drain_aux, this]
  | succ n ih =>
    intro s h
    match hq : s.events_queue with
    | [] => simp [drain_aux, hq]
    | e :: rest =>
      rw [drain_aux, hq]
      apply ih
      rw [process_event_queue]
      have : rest.length + 1 ≤ n + 1 := by
        simpa [hq] using h
      exact Nat.lt_succ_iff.mp this

/-- The queue is empty after every run of the drain loop. -/
theorem drain_queue_empties (s : EditorState) : (drain_queue s).events_queue = [] :=
  drain_aux_queue s.events_queue.length s (Nat.le_refl _)

/-- With fuel at least the queue length, the drain loop processes exactly
the queued events, in queue (FIFO) order. -/
theorem drain_trace_aux_eq : ∀ (fuel : Nat) (s : EditorState),
    s.events_queue.length ≤ fuel → drain_trace_aux fuel s = s.events_queue := by
  intro fuel
  induction fuel with
  | zero =>
    intro s h
    have : s.events_queue = [] := List.length_eq_zero.mp (Nat.le_zero.mp h)
    simp [drain_trace_aux, this]
  | succ n ih =>
    intro s h
    match hq : s.events_queue with
    | [] => simp [drain_trace_aux, hq]
    | e :: rest =>
      rw [drain_trace_aux, hq]
      show e :: drain_trace_aux n (process_event { s with events_queue := rest } e) = e :: rest
      congr 1
      have hlen : rest.length ≤ n := by
        have : rest.length + 1 ≤ n + 1 := by simpa [hq] using h
        exact Nat.lt_succ_iff.mp this
      rw [ih _ (by rw [process_event_queue]; exact hlen), process_event_queue]

/-- The drain loop processes exactly the queued events, in FIFO order. -/
theorem drain_trace_eq (s : EditorState) : drain_trace s = s.events_queue :=
  drain_trace_aux_eq s.events_queue.length s (Nat.le_refl _)

/-- The drain loop never touches the key map. -/
theorem drain_aux_keymap : ∀ (fuel : Nat) (s : EditorState),
    (drain_aux fuel s).keymap = s.keymap := by
  intro fuel
  induction fuel with
  | zero => intro s; rfl
  | succ n ih =>
    intro s
    match hq : s.events_queue with
    | [] => simp [drain_aux, hq]
    | e :: rest =>
      rw [drain_aux, hq, ih, process_event_keymap]

/-- Once stopped, the drain loop leaves the editor stopped. -/
theorem drain_aux_running_false : ∀ (fuel : Nat) (s : EditorState),
    s.running = false → (drain_aux fuel s).running = false := by
  intro fuel
  induction fuel with
  | zero => intro s h; simpa [drain_aux] using h
  | succ n ih =>
    intro s h
    match hq : s.events_queue with
    | [] => simpa [drain_aux, hq] using h
    | e :: rest =>
      rw [drain_aux, hq]
      exact ih _ (process_event_running_false _ _ h)

/-- If no queued event is named `"iota.quit"`, the drain loop preserves the
running flag. -/
theorem drain_aux_running_preserved : ∀ (fuel : Nat) (s : EditorState),
    (∀ e ∈ s.events_queue, e.name ≠ "iota.quit") →
    (drain_aux fuel s).running = s.running := by
  intro fuel
  induction fuel with
  | zero => intro s _; rfl
  | succ n ih =>
    intro s h
    match hq : s.events_queue with
    | [] => simp [drain_aux, hq]
    | e :: rest =>
      rw [drain_aux, hq]
      have hrest : ∀ e' ∈ (process_event { s with events_queue := rest } e).events_queue,
          e'.name ≠ "iota.quit" := by
        rw [process_event_queue]
        intro e' he'
        exact h e' (by rw [hq]; exact List.mem_cons_of_mem _ he')
      rw [ih _ hrest, process_event_running_of_ne _ _ (h e (by rw [hq]; exact List.mem_cons_self _ _))]

/-- If some queued event is named `"iota.quit"` and the fuel covers the
queue, the drain loop stops the editor. -/
theorem drain_aux_quit : ∀ (fuel : Nat) (s : EditorState),
    s.events_queue.length ≤ fuel →
    (∃ e ∈ s.events_queue, e.name = "iota.quit") →
    (drain_aux fuel s).running = false := by
  intro fuel
  induction fuel with
  | zero =>
    intro s hlen h
    have : s.events_queue = [] := List.length_eq_zero.mp (Nat.le_zero.mp hlen)
    rcases h with ⟨e, he, _⟩
    rw [this] at he
    cases he
  | succ n ih =>
    intro s hlen h
    match hq : s.events_queue with
    | [] =>
      rcases h with ⟨e, he, _⟩
      rw [hq] at he
      cases he
    | e :: rest =>
      rw [drain_aux, hq]
      rcases h with ⟨e', he', hname⟩
      rw [hq] at he'
      have hlen' : rest.length ≤ n := by
        have : rest.length + 1 ≤ n + 1 := by simpa [hq] using hlen
        exact Nat.lt_succ_iff.mp this
      rcases List.mem_cons.mp he' with heq | hmem
      · subst heq
        exact drain_aux_running_false _ _ (process_event_quit _ _ hname)
      · exact ih _ (by rw [process_event_queue]; exact hlen') ⟨e', by rw [process_event_queue]; exact hmem, hname⟩

/-- The drain loop preserves the running flag when no queued event is the
quit event. -/
theorem drain_queue_running_preserved (s : EditorState)
    (h : ∀ e ∈ s.events_queue, e.name ≠ "iota.quit") :
    (drain_queue s).running = s.running :=
  drain_aux_running_preserved _ _ h

/-- The drain loop stops the editor when a queued event is the quit event. -/
theorem drain_queue_quit (s : EditorState)
    (h : ∃ e ∈ s.events_queue, e.name = "iota.quit") :
    (drain_queue s).running = false :=
  drain_aux_quit _ _ (Nat.le_refl _) h

/-! ### Frame lemmas about key handling and dispatch -/

/-- `check_key` only moves the current partial-match node; the bindings of
the trie are untouched. -/
theorem check_key_bindings (km : KeyMap) (k : Key) :
    ((km.check_key k).1).bindings = km.bindings := by
  cases h : km.lookup (km.current ++ [k]) with
  | none =>
    by_cases hc : km.has_continuation (km.current ++ [k]) <;>
      simp [KeyMap.check_key, h, hc]
  | some ev => simp [KeyMap.check_key, h]

/-- Handling a key never changes the running flag: the three matcher
outcomes fire an event, wait, or insert a character. -/
theorem handle_key_event_running (s : EditorState) (key : Option Key) :
    (handle_key_event s key).running = s.running := by
  unfold handle_key_event fire_event
  split
  · rfl
  · split
    · rfl
    · rfl
    · split <;> rfl

/-- Handling a key never changes the trie bindings (only the matcher's
partial-match state). -/
theorem handle_key_event_bindings (s : EditorState) (key : Option Key) :
    (handle_key_event s key).keymap.bindings = s.keymap.bindings := by
  unfold handle_key_event fire_event
  split
  · rfl
  case _ k =>
    have hb := check_key_bindings s.keymap k
    split
    all_goals rename_i heq
    · rw [heq] at hb
      exact hb
    · rw [heq] at hb
      exact hb
    · rw [heq] at hb
      split <;> exact hb

/-- Dispatching a polled frontend event never changes the running flag. -/
theorem dispatch_running (s : EditorState) (event : EditorEvent) :
    (dispatch s event).running = s.running := by
  cases event with
  | KeyEvent key => exact handle_key_event_running s key
  | Resize w h => rfl
  | Other => rfl

/-- Dispatching a polled frontend event never changes the trie bindings. -/
theorem dispatch_bindings (s : EditorState) (event : EditorEvent) :
    (dispatch s event).keymap.bindings = s.keymap.bindings := by
  cases event with
  | KeyEvent key => exact handle_key_event_bindings s key
  | Resize w h => rfl
  | Other => rfl

/-- One loop iteration leaves the pending-event queue empty. -/
theorem step_queue (s : EditorState) (event : EditorEvent) :
    (step s event).events_queue = [] :=
  drain_queue_empties _

/-- One loop iteration never changes the trie bindings. -/
theorem step_bindings (s : EditorState) (event : EditorEvent) :
    (step s event).keymap.bindings = s.keymap.bindings := by
  unfold step drain_queue
  rw [drain_aux_keymap, dispatch_bindings]

/-! ### Lemmas about the main loop -/

/-- A stopped editor draws nothing: the loop guard fails immediately. -/
theorem run_draws_zero (s : EditorState) (evs : List EditorEvent)
    (h : s.running = false) : (run s evs).2 = 0 := by
  cases evs <;> simp [run, h]

/-- The main loop never rebinds keys: the bindings registered before the
loop are the bindings at every point of the run. -/
theorem run_bindings : ∀ (evs : List EditorEvent) (s : EditorState),
    ((run s evs).1).keymap.bindings = s.keymap.bindings := by
  intro evs
  induction evs with
  | nil =>
    intro s
    by_cases h : s.running = true <;> simp [run, h]
  | cons e rest ih =>
    intro s
    by_cases h : s.running = true
    · rw [run]
      simp only [h, if_true]
      rw [ih, step_bindings]
    · simp [run, h]

/-- Every state at which an executed iteration of the loop begins has an
empty pending-event queue, provided the initial one does. -/
theorem iter_states_queue : ∀ (evs : List EditorEvent) (s : EditorState),
    s.events_queue = [] → ∀ u ∈ iter_states s evs, u.events_queue = [] := by
  intro evs
  induction evs with
  | nil =>
    intro s h u hu
    rw [iter_states] at hu
    split at hu
    · rw [List.mem_singleton.mp hu]
      exact h
    · cases hu
  | cons e rest ih =>
    intro s h u hu
    rw [iter_states] at hu
    split at hu
    · rcases List.mem_cons.mp hu with heq | hmem
      · rw [heq]; exact h
      · exact ih _ (step_queue s e) u hmem
    · cases hu

/-! ### The claims -/

/-- Claim C1 (code-bug evidence).  The claim states that a key event while
the current view has an active overlay is routed to the overlay handler
rather than the key matcher.  `Editor::handle_key_event` (lines 93-119)
never consults the overlay — the overlay path its own doc comment (lines
82-92) describes is commented out — so with an active `Prompt` overlay an
unbound printable key still takes the key-matcher fallback path: it is
inserted into the buffer, the overlay is left untouched, and nothing
reaches the pending-event queue. -/
theorem active_overlay_bypassed :
    sOv.view.overlay = Overlay.Prompt "" ∧
    (handle_key_event sOv (some (Key.Char 'x'))).view.overlay = Overlay.Prompt "" ∧
    (handle_key_event sOv (some (Key.Char 'x'))).view.buffer.content = ['x'] ∧
    (handle_key_event sOv (some (Key.Char 'x'))).events_queue = [] := by
  decide

/-- Claim C2 (counterexample).  The claim states that in normal mode an
unbound printable key is a no-op.  In the code the `KeyMapState::None` arm
inserts any `Key::Char` without consulting the mode: starting from the
normal-mode editor with an empty buffer, the unbound key `'x'` is
inserted. -/
theorem normal_mode_unbound_char_inserts :
    s0.mode = ModeType.Normal ∧
    s0.view.buffer.content = [] ∧
    (handle_key_event s0 (some (Key.Char 'x'))).view.buffer.content = ['x'] := by
  decide

/-- Claim C2 (amended).  When the key matcher reports `KeyMapState::None`,
a printable character key is inserted literally into the buffer regardless
of the current mode — the mode is never consulted — and any other key is
ignored (only the matcher state advances). -/
theorem nomatch_inserts_regardless_of_mode (s : EditorState) (k : Key) (km' : KeyMap)
    (h : s.keymap.check_key k = (km', KeyMapState.None)) :
    handle_key_event s (some k) =
      match k with
      | Key.Char ch => { s with keymap := km', view := s.view.insert_char ch }
      | _ => { s with keymap := km' } := by
  cases k <;> simp [handle_key_event, h]

/-- Witness for the amended claim C2 at the concrete unbound key `'x'`. -/
theorem nomatch_inserts_regardless_of_mode_witness :
    handle_key_event s0 (some (Key.Char 'x')) =
      { s0 with keymap := (s0.keymap.check_key (Key.Char 'x')).1,
                view := s0.view.insert_char 'x' } :=
  nomatch_inserts_regardless_of_mode s0 (Key.Char 'x')
    ((s0.keymap.check_key (Key.Char 'x')).1) (by decide)

/-- Claim C3.  If the key bound to `"iota.quit"` is matched, the iteration
that dispatches it drains the fired quit event, the running flag is false
at the end of that same iteration, and the remainder of the loop issues no
further draw call. -/
theorem quit_event_stops_loop (s : EditorState) (k : Key) (km' : KeyMap)
    (rest : List EditorEvent)
    (h : s.keymap.check_key k = (km', KeyMapState.Match (Event.new "iota.quit"))) :
    (step s (EditorEvent.KeyEvent (some k))).running = false ∧
    (run (step s (EditorEvent.KeyEvent (some k))) rest).2 = 0 := by
  have hd : dispatch s (EditorEvent.KeyEvent (some k))
      = { s with keymap := km', events_queue := s.events_queue ++ [Event.new "iota.quit"] } := by
    simp [dispatch, handle_key_event, h, fire_event]
  have hrun : (step s (EditorEvent.KeyEvent (some k))).running = false := by
    rw [step, hd]
    exact drain_queue_quit _ ⟨Event.new "iota.quit", by simp, rfl⟩
  exact ⟨hrun, run_draws_zero _ rest hrun⟩

/-- Witness for claim C3: the default `"ctrl-q"` binding at startup. -/
theorem quit_event_stops_loop_witness :
    (step s0 (EditorEvent.KeyEvent (some (Key.Ctrl 'q')))).running = false ∧
    (run (step s0 (EditorEvent.KeyEvent (some (Key.Ctrl 'q')))) []).2 = 0 :=
  quit_event_stops_loop s0 (Key.Ctrl 'q')
    ((s0.keymap.check_key (Key.Ctrl 'q')).1) [] (by decide)

/-- Claim C4.  The loop exits only via the explicit quit event: dispatching
any frontend event (key, resize or other) preserves the running flag,
processing any event not named `"iota.quit"` preserves it, and the drain
phase preserves it whenever no queued event is the quit event. -/
theorem loop_exits_only_via_quit (s1 s2 s3 : EditorState) (fe : EditorEvent) (e : Event)
    (h : e.name ≠ "iota.quit")
    (hq : ∀ e' ∈ s3.events_queue, e'.name ≠ "iota.quit") :
    (dispatch s1 fe).running = s1.running ∧
    (process_event s2 e).running = s2.running ∧
    (drain_queue s3).running = s3.running :=
  ⟨dispatch_running s1 fe, process_event_running_of_ne s2 e h,
    drain_queue_running_preserved s3 hq⟩

/-- Witness for claim C4 at an `Other` frontend event and the
`"iota.save"` editing event. -/
theorem loop_exits_only_via_quit_witness :
    (dispatch s0 EditorEvent.Other).running = s0.running ∧
    (process_event s0 (Event.new "iota.save")).running = s0.running ∧
    (drain_queue s0).running = s0.running :=
  loop_exits_only_via_quit s0 s0 s0 EditorEvent.Other (Event.new "iota.save")
    (by decide) (by decide)

/-- Claim C5.  The drain loop empties the pending-event queue, processes
exactly the queued events in FIFO order, and — provided the initial queue
is empty, as it is after `Editor::new` — the queue is empty at the start
of every executed iteration of the main loop (hence the drain completes
before the next draw). -/
theorem queue_drained_fifo_each_iteration (s t : EditorState) (evs : List EditorEvent)
    (h : s.events_queue = []) (u : EditorState) (hu : u ∈ iter_states s evs) :
    (drain_queue t).events_queue = [] ∧
    drain_trace t = t.events_queue ∧
    u.events_queue = [] :=
  ⟨drain_queue_empties t, drain_trace_eq t, iter_states_queue evs s h u hu⟩

/-- A startup state with two fired events pending, to exhibit the FIFO
drain order. -/
def tQ : EditorState :=
  fire_event (fire_event s0 (Event.new "iota.move_right")) (Event.new "iota.move_left")

/-- Witness for claim C5 on a queue holding two events. -/
theorem queue_drained_fifo_each_iteration_witness :
    (drain_queue tQ).events_queue = [] ∧
    drain_trace tQ = tQ.events_queue ∧
    s0.events_queue = [] :=
  queue_drained_fifo_each_iteration s0 tQ [EditorEvent.Other] rfl s0 (by decide)

/-- Claim C6.  A complete key-matcher match fires the bound event onto the
back of the pending-event queue — view, buffer and running flag untouched,
so nothing is executed immediately — and (from the empty queue each
iteration starts with) the drain phase of that same iteration is exactly
where the event is processed. -/
theorem matched_event_queued_not_executed (s : EditorState) (k : Key) (km' : KeyMap)
    (e : Event) (h : s.keymap.check_key k = (km', KeyMapState.Match e)) :
    handle_key_event s (some k)
        = { s with keymap := km', events_queue := s.events_queue ++ [e] } ∧
    (s.events_queue = [] → drain_trace (handle_key_event s (some k)) = [e]) ∧
    (s.events_queue = [] →
      step s (EditorEvent.KeyEvent (some k))
        = process_event { s with keymap := km', events_queue := [] } e) := by
  have h1 : handle_key_event s (some k)
      = { s with keymap := km', events_queue := s.events_queue ++ [e] } := by
    simp [handle_key_event, h, fire_event]
  refine ⟨h1, ?_, ?_⟩
  · intro hq
    rw [h1, hq, drain_trace_eq]
    simp
  · intro hq
    have h2 : step s (EditorEvent.KeyEvent (some k))
        = drain_queue (handle_key_event s (some k)) := rfl
    rw [h2, h1, hq]
    rfl

/-- Witness for claim C6: the default `"left"` binding at startup. -/
theorem matched_event_queued_not_executed_witness :
    (handle_key_event s0 (some Key.Left)
        = { s0 with keymap := (s0.keymap.check_key Key.Left).1,
                    events_queue := s0.events_queue ++ [Event.new "iota.move_left"] }) ∧
    (s0.events_queue = [] →
      drain_trace (handle_key_event s0 (some Key.Left)) = [Event.new "iota.move_left"]) ∧
    (s0.events_queue = [] →
      step s0 (EditorEvent.KeyEvent (some Key.Left))
        = process_event { s0 with keymap := (s0.keymap.check_key Key.Left).1,
                                  events_queue := [] }
            (Event.new "iota.move_left")) :=
  matched_event_queued_not_executed s0 Key.Left ((s0.keymap.check_key Key.Left).1)
    (Event.new "iota.move_left") (by decide)

/-- Claim C7.  `bind_keys` splits its key string on spaces, parses each
name into a `Key` and registers the sequence against the named event; from
a fresh key map, startup registers exactly the fixed default binding set
(in registration order), and the registration happens once, before the
loop — `start` is registration followed by `run`, and `run` never changes
the bindings. -/
theorem default_bindings_registered_once (s : EditorState) (evs : List EditorEvent)
    (h : s.keymap = KeyMap.new) :
    (register_key_bindings s).keymap.bindings =
      [([Key.Up], Event.new "iota.move_up"),
       ([Key.Down], Event.new "iota.move_down"),
       ([Key.Left], Event.new "iota.move_left"),
       ([Key.Right], Event.new "iota.move_right"),
       ([Key.Ctrl 'q'], Event.new "iota.quit"),
       ([Key.Backspace], Event.new "iota.delete_backwards"),
       ([Key.Delete], Event.new "iota.delete_forwards"),
       ([Key.Enter], Event.new "iota.newline"),
       ([Key.Ctrl 'z'], Event.new "iota.undo"),
       ([Key.Ctrl 'r'], Event.new "iota.redo"),
       ([Key.Ctrl 's'], Event.new "iota.save")] ∧
    (bind_keys s "ctrl-x ctrl-s" "test.event").keymap.bindings =
      [([Key.Ctrl 'x', Key.Ctrl 's'], Event.new "test.event")] ∧
    start s evs = run (register_key_bindings s) evs ∧
    ((run (register_key_bindings s) evs).1).keymap.bindings
      = (register_key_bindings s).keymap.bindings := by
  refine ⟨?_, ?_, rfl, run_bindings evs _⟩
  · simp only [register_key_bindings, bind_keys]
    rw [h]
    decide
  · simp only [bind_keys]
    rw [h]
    decide

/-- Witness for claim C7 at the freshly created editor. -/
theorem default_bindings_registered_once_witness :
    ((register_key_bindings (init v0 ModeType.Normal)).keymap.bindings =
      [([Key.Up], Event.new "iota.move_up"),
       ([Key.Down], Event.new "iota.move_down"),
       ([Key.Left], Event.new "iota.move_left"),
       ([Key.Right], Event.new "iota.move_right"),
       ([Key.Ctrl 'q'], Event.new "iota.quit"),
       ([Key.Backspace], Event.new "iota.delete_backwards"),
       ([Key.Delete], Event.new "iota.delete_forwards"),
       ([Key.Enter], Event.new "iota.newline"),
       ([Key.Ctrl 'z'], Event.new "iota.undo"),
       ([Key.Ctrl 'r'], Event.new "iota.redo"),
       ([Key.Ctrl 's'], Event.new "iota.save")]) ∧
    (bind_keys (init v0 ModeType.Normal) "ctrl-x ctrl-s" "test.event").keymap.bindings =
      [([Key.Ctrl 'x', Key.Ctrl 's'], Event.new "test.event")] ∧
    start (init v0 ModeType.Normal) [] = run (register_key_bindings (init v0 ModeType.Normal)) [] ∧
    ((run (register_key_bindings (init v0 ModeType.Normal)) []).1).keymap.bindings
      = (register_key_bindings (init v0 ModeType.Normal)).keymap.bindings :=
  default_bindings_registered_once (init v0 ModeType.Normal) [] rfl

/-- Claim C8.  A `KeyEvent` carrying no key is a complete no-op:
`handle_key_event` returns the state unchanged — matcher, view, buffer,
queue and running flag included. -/
theorem none_key_event_noop (s : EditorState) :
    handle_key_event s Option.none = s := rfl

/-- Claim C9.  `process_event` on any event whose name is none of the
eleven built-in names falls to the catch-all arm and returns the state
unchanged: no buffer mutation, no mode change, running untouched, no
error. -/
theorem unknown_event_name_noop (s : EditorState) (e : Event)
    (h : e.name ∉ (["iota.quit", "iota.undo", "iota.redo", "iota.save", "iota.newline",
      "iota.delete_backwards", "iota.delete_forwards", "iota.move_up", "iota.move_down",
      "iota.move_left", "iota.move_right"] : List String)) :
    process_event s e = s := by
  unfold process_event
  split <;> simp_all [Event.get_name]

/-- Witness for claim C9 at the unrecognized name `"ext.custom"`. -/
theorem unknown_event_name_noop_witness :
    process_event s0 (Event.new "ext.custom") = s0 :=
  unknown_event_name_noop s0 (Event.new "ext.custom") (by decide)

/-- Claim C10.  While a key-sequence match is pending (`Continue`), the
key has no visible effect: the handler only advances the matcher state —
no character is inserted and no event is queued. -/
theorem pending_match_key_no_effect (s : EditorState) (k : Key) (km' : KeyMap)
    (h : s.keymap.check_key k = (km', KeyMapState.Continue)) :
    handle_key_event s (some k) = { s with keymap := km' } := by
  simp [handle_key_event, h]

/-- A startup state with an additional two-key chord binding, whose first
key yields `Continue`. -/
def sChord : EditorState := bind_keys s0 "ctrl-x ctrl-s" "test.save"

/-- Witness for claim C10: the first key of the two-key chord. -/
theorem pending_match_key_no_effect_witness :
    handle_key_event sChord (some (Key.Ctrl 'x'))
      = { sChord with keymap := (sChord.keymap.check_key (Key.Ctrl 'x')).1 } :=
  pending_match_key_no_effect sChord (Key.Ctrl 'x')
    ((sChord.keymap.check_key (Key.Ctrl 'x')).1) (by decide)

end Iota
